import Mathlib

/-!
Verification development for the gdevelop-p2p-server relay (src/unnamed/part_001).

The relay keeps a `players` Map from a peer identity to a `Player` wrapper
around that peer's data connection.  Incoming transport events (connection,
open, data, close, error), the per-player periodic disconnect checker and the
delayed "disconnected" broadcast timeout are the only mutators of that map.

The embedding below translates the relay source into Lean:
  * JavaScript values that flow through the handlers are modelled by `JSValue`
    (with `truthy`, the `a || b` operator `jsOr`, and property access);
  * `JSON.parse` applied to a wire string is modelled by `jsonParse` over
    `Raw` (a wire string is either a string that decodes to a JSON value or a
    string on which `JSON.parse` throws);
  * the `Player.onUpdate` data handler is the function `onUpdate`;
  * the server as a whole is a state machine `step : Srv → Event → Srv`
    driven by transport events and timer firings, with `Reachable` the states
    reachable from the empty server.
DOM rendering (`log`, `updateList`) only projects the state and is omitted,
as is the test client at the bottom of the source file.  Transport sends are
fire-and-forget and are recorded in a send log.
-/

namespace GDP2P

/-- A peer identity: `connection.peer`, the Registry key. -/
abbrev Identity := String

/-- A session handle: `Player` objects are identified by allocation order, so
that JavaScript object identity (`===`) is equality of handles. -/
abbrev SessionId := Nat

/-- A JavaScript value as it appears in the relay's handlers: the result of
`JSON.parse`, a field of a parsed object, or a state field of a `Player`. -/
inductive JSValue where
  | undefined
  | null
  | bool (b : Bool)
  | num (n : Int)
  | str (s : String)
  | arr (elems : List JSValue)
  | obj (fields : List (String × JSValue))

/-- JavaScript truthiness of a value (`NaN` is not modelled: numbers are
integers here, which covers every payload the relay handles). -/
def truthy : JSValue → Bool
  | .undefined => false
  | .null => false
  | .bool b => b
  | .num n => n != 0
  | .str s => s != ""
  | .arr _ => true
  | .obj _ => true

/-- The JavaScript expression `a || b`: `b` when `a` is falsy, else `a`. -/
def jsOr (a b : JSValue) : JSValue :=
  if truthy a then a else b

/-- The JavaScript comparison `v === undefined`. -/
def isUndefined : JSValue → Bool
  | .undefined => true
  | _ => false

/-- First-match field lookup in an object literal's field list. -/
def fieldLookup : List (String × JSValue) → String → JSValue
  | [], _ => .undefined
  | (k, v) :: rest, f => if k = f then v else fieldLookup rest f

/-- JavaScript property read `v.f` in the non-throwing cases: a missing field
or a read on a primitive yields `undefined`. -/
def getField : JSValue → String → JSValue
  | .obj fields, f => fieldLookup fields f
  | _, _ => .undefined

/-- A JavaScript exception that can escape a handler: the `SyntaxError` of
`JSON.parse` on a malformed string, or the `TypeError` of a property read on
`null`/`undefined`. -/
inductive JsEx where
  | parseErr
  | typeErr

/-- JavaScript property read `v.f` as the relay executes it: reading a
property of `null` or `undefined` throws a `TypeError`. -/
def member : JSValue → String → Except JsEx JSValue
  | .undefined, _ => .error .typeErr
  | .null, _ => .error .typeErr
  | v, f => .ok (getField v f)

/-- A wire string as seen by `JSON.parse`: either a string that decodes to
the JSON value carried by `ok` (`JSON.parse` never yields `undefined` from a
real JSON string) or a malformed string on which `JSON.parse` throws. -/
inductive Raw where
  | ok (v : JSValue)
  | bad

/-- `JSON.parse` on a wire string: returns the decoded value or throws. -/
def jsonParse : Raw → Except JsEx JSValue
  | .ok v => .ok v
  | .bad => .error .parseErr

/-- An incoming wire message `{ eventName, data }`: `eventName` is `none`
when the property is absent (`e.eventName === undefined`), and `data` is the
raw string handed to `JSON.parse`. -/
structure WireMsg where
  eventName : Option String
  data : Raw

/-- The per-player state of the `Player` class: the identity captured from
`connection.peer` plus the class fields `x`, `y`, `animation`, `flip`. -/
structure PlayerData where
  id : Identity
  x : JSValue
  y : JSValue
  animation : JSValue
  flip : JSValue

/-- A freshly constructed `Player`: the class field initializers
`x = 0; y = 0; animation = 0; flip = 0` with `this.id = connection.peer`. -/
def freshPlayer (i : Identity) : PlayerData :=
  { id := i, x := .num 0, y := .num 0, animation := .num 0, flip := .num 0 }

/-- The `data` slot of an outbound message: `send` applies `JSON.stringify`
to the payload unless `skipStringify` is set, in which case the payload goes
out unencoded. -/
inductive OutData where
  | encoded (payload : JSValue)
  | raw (payload : JSValue)

/-- An outbound message `{ eventName, data }` as handed to `_c.send`. -/
structure OutMsg where
  eventName : String
  data : OutData

/-- `Player.send(name, payload, skipStringify)`: builds the outbound message
`{ eventName: name, data: skipStringify ? payload : JSON.stringify(payload) }`. -/
def sendMsg (name : String) (payload : JSValue) (skipStringify : Bool) : OutMsg :=
  { eventName := name
    data := if skipStringify then .raw payload else .encoded payload }

/-- One element pushed by `updateClient`'s loop:
`{ x: player.x, y: player.y, animation: player.animation, flip: player.flip,
name: key }`. -/
def rosterEntry (key : Identity) (p : PlayerData) : JSValue :=
  .obj [("x", p.x), ("y", p.y), ("animation", p.animation),
        ("flip", p.flip), ("name", .str key)]

/-- The payload array built by `Player.updateClient` from the registry view:
iterate the map entries in order, `continue` on the caller's own key, and
push a roster record for every other entry. -/
def rosterPayload (selfId : Identity) : List (Identity × PlayerData) → List JSValue
  | [] => []
  | (key, p) :: rest =>
    if key = selfId then rosterPayload selfId rest
    else rosterEntry key p :: rosterPayload selfId rest

/-- `Player.onUpdate(e)` on the wrapped player's state, all sends factored
out: returns the updated player together with a flag that is `true` exactly
when `this.updateClient()` was invoked (the "update" branch), or the
exception that escapes the handler.  The source checks
`e === undefined || e.eventName === undefined`, then runs
`const data = JSON.parse(e.data)` — the bare `JSON.parse`, not the
`parseJSON` try/catch helper defined (but never called) at the top of the
file — and then two independent `if`s on `e.eventName`; since a single
`eventName` string cannot match both branches they are rendered as an
`if`/`else if`. -/
def onUpdate (p : PlayerData) (e : Option WireMsg) :
    Except JsEx (PlayerData × Bool) :=
  match e with
  | none => .ok (p, false)
  | some m =>
    match m.eventName with
    | none => .ok (p, false)
    | some name =>
      match jsonParse m.data with
      | .error ex => .error ex
      | .ok data =>
        if name = "update" then
          if isUndefined data then .ok (p, false)
          else
            match member data "x", member data "y", member data "animation" with
            | .ok xv, .ok yv, .ok av =>
              .ok ({ p with x := jsOr xv (.num 0), y := jsOr yv (.num 0),
                            animation := jsOr av (.num 0) }, true)
            | _, _, _ => .error .typeErr
        else if name = "flip" then
          .ok ({ p with flip := data }, false)
        else .ok (p, false)

/-! ## The registry Map

`players` is a JavaScript `Map`, modelled as an association list in insertion
order: `Map.set` updates an existing key in place and appends a new key,
`Map.delete` removes the (unique) entry of a key, `Map.get` returns the first
match. -/

/-- `players.get(k)` (also `players.has(k)` via `Option.isSome`). -/
def mapGet (k : Identity) : List (Identity × SessionId) → Option SessionId
  | [] => none
  | (k', v) :: rest => if k' = k then some v else mapGet k rest

/-- `players.set(k, v)`: replace in place, or append a new key. -/
def mapSet (k : Identity) (v : SessionId) :
    List (Identity × SessionId) → List (Identity × SessionId)
  | [] => [(k, v)]
  | (k', v') :: rest =>
    if k' = k then (k, v) :: rest else (k', v') :: mapSet k v rest

/-- `players.delete(k)`: drop the first (on reachable states: only) entry. -/
def mapDelete (k : Identity) :
    List (Identity × SessionId) → List (Identity × SessionId)
  | [] => []
  | (k', v') :: rest =>
    if k' = k then rest else (k', v') :: mapDelete k rest

/-- `Player._sendEventToAll(name, payload, skipStringify)`: iterate the
registry, `continue` on the caller's own key, and `send` the event to every
other entry's player; returns the (receiver connection, message) list in
iteration order. -/
def sendEventToAll (selfId : Identity) (name : String) (payload : JSValue)
    (skipStringify : Bool) :
    List (Identity × SessionId) → List (SessionId × OutMsg)
  | [] => []
  | (key, sid) :: rest =>
    if key = selfId then sendEventToAll selfId name payload skipStringify rest
    else (sid, sendMsg name payload skipStringify) ::
      sendEventToAll selfId name payload skipStringify rest

/-- The registry as `updateClient` iterates it: each entry's key paired with
the current state of the `Player` object it references in the store. -/
def regViewList (store : List PlayerData) :
    List (Identity × SessionId) → List (Identity × PlayerData)
  | [] => []
  | (key, sid) :: rest =>
    match store[sid]? with
    | some p => (key, p) :: regViewList store rest
    | none => regViewList store rest

/-! ## The server state machine -/

/-- The low-level `peerConnection.connectionState` the disconnect checker
reads (an `RTCPeerConnection` connection state). -/
inductive ConnState where
  | new
  | connecting
  | connected
  | disconnected
  | failed
  | closed

/-- The checker's test:
`connectionState === 'failed' || connectionState === 'disconnected'`. -/
def badState : ConnState → Bool
  | .failed => true
  | .disconnected => true
  | _ => false

/-- The whole server state.  `sessions` is the store of every `Player` object
ever constructed (`SessionId` = allocation order); `players` is the registry
Map; `closedConns` records the connections on which `.close()` was called;
`pendingDisc` the scheduled `setTimeout` bodies that will broadcast a
"disconnected" event; `monitors` the live `disconnectChecker` timers; `sent`
the log of fire-and-forget transport sends (receiver's connection, message). -/
structure Srv where
  sessions : List PlayerData
  players : List (Identity × SessionId)
  closedConns : List SessionId
  pendingDisc : List SessionId
  monitors : List SessionId
  sent : List (SessionId × OutMsg)

/-- The server before any connection: every container empty. -/
def initSrv : Srv :=
  { sessions := [], players := [], closedConns := [], pendingDisc := [],
    monitors := [], sent := [] }

/-- `Player.close()` on the session `sid`: close the transport handle
(`this._c.close()`), delete the registry entry only when the registry still
references this very object (`players.get(this.id) === this`), and schedule
the delayed "disconnected" broadcast
(`setTimeout(() => this._sendEventToAll("disconnected", this.id, true), 500)`).
`updateList()` only repaints the DOM roster and has no state effect. -/
def closePlayer (sid : SessionId) (s : Srv) : Srv :=
  match s.sessions[sid]? with
  | none => s
  | some p =>
    { s with
      closedConns := s.closedConns ++ [sid]
      players :=
        if mapGet p.id s.players = some sid then mapDelete p.id s.players
        else s.players
      pendingDisc := s.pendingDisc ++ [sid] }

/-- The discrete events the environment delivers to the relay: the transport
events `connection` (with the `connectionState` the constructor's synchronous
first `disconnectChecker()` run observes), `open`, `data`, `close`, `error`
of a given session's connection, a `disconnectChecker` timer firing with the
`connectionState` it observes, and a scheduled "disconnected" broadcast
timeout firing. -/
inductive Event where
  | connection (i : Identity) (cs : ConnState)
  | openEvt (sid : SessionId)
  | dataEvt (sid : SessionId) (e : Option WireMsg)
  | closeEvt (sid : SessionId)
  | errorEvt (sid : SessionId)
  | tick (sid : SessionId) (cs : ConnState)
  | fireDisc (j : Nat)

/-- The dedup snippet `if(players.has(id)) players.get(id).close();` that
appears both in the `peer.on("connection")` handler and in the `Player`
constructor (line 57). -/
def connClose (i : Identity) (s : Srv) : Srv :=
  match mapGet i s.players with
  | some old => closePlayer old s
  | none => s

/-- One handler execution.  Each case is the corresponding handler in the
source:
  * `connection`: `peer.on("connection")` closes the registered player of the
    same identity if any, then `new Player(connection)` runs — which repeats
    the same dedup check (line 57), registers the four connection callbacks,
    and synchronously runs `disconnectChecker()` once: on a
    failed/disconnected state it closes the new player, otherwise it
    schedules itself (the new monitor);
  * `openEvt`: `players.set(this.id, this)` — unconditionally;
  * `dataEvt`: `this.onUpdate(e)`; an exception escaping the handler leaves
    the state untouched (the parse throws before any field is assigned) and
    does not close the connection; when the "update" branch ran,
    `updateClient` sends the roster built from the post-assignment registry
    view to this player's own connection;
  * `closeEvt`: the connection's `close` handler calls `this.close()`;
  * `errorEvt`: the `error` handler calls `this.close()` and then
    `players.delete(this.id)` — without the `=== this` guard;
  * `tick`: a scheduled `disconnectChecker` fires: on a failed/disconnected
    `connectionState` it calls `player.close()` and does not reschedule,
    otherwise it reschedules itself;
  * `fireDisc`: a scheduled `_sendEventToAll("disconnected", this.id, true)`
    timeout fires against the registry at firing time.
Events that reference an unallocated session or an unscheduled timer have no
handler to run and leave the state unchanged. -/
def step (s : Srv) : Event → Srv
  | .connection i cs =>
    let s1 := connClose i s
    let sid := s1.sessions.length
    let s2 := { s1 with sessions := s1.sessions ++ [freshPlayer i] }
    let s3 := connClose i s2
    if badState cs then closePlayer sid s3
    else { s3 with monitors := s3.monitors ++ [sid] }
  | .openEvt sid =>
    match s.sessions[sid]? with
    | none => s
    | some p => { s with players := mapSet p.id sid s.players }
  | .dataEvt sid e =>
    match s.sessions[sid]? with
    | none => s
    | some p =>
      match onUpdate p e with
      | .error _ => s
      | .ok (p2, doSend) =>
        let s1 := { s with sessions := s.sessions.set sid p2 }
        if doSend then
          { s1 with sent := s1.sent ++
              [(sid, sendMsg "update"
                  (.arr (rosterPayload p2.id (regViewList s1.sessions s1.players)))
                  false)] }
        else s1
  | .closeEvt sid =>
    match s.sessions[sid]? with
    | none => s
    | some _ => closePlayer sid s
  | .errorEvt sid =>
    match s.sessions[sid]? with
    | none => s
    | some p =>
      let s1 := closePlayer sid s
      { s1 with players := mapDelete p.id s1.players }
  | .tick sid cs =>
    if sid ∈ s.monitors then
      let s1 := { s with monitors := s.monitors.erase sid }
      if badState cs then closePlayer sid s1
      else { s1 with monitors := s1.monitors ++ [sid] }
    else s
  | .fireDisc j =>
    match s.pendingDisc[j]? with
    | none => s
    | some sid =>
      match s.sessions[sid]? with
      | none => s
      | some p =>
        { s with
          pendingDisc := s.pendingDisc.eraseIdx j
          sent := s.sent ++ sendEventToAll p.id "disconnected" (.str p.id) true s.players }

/-- The server states reachable from the empty server by handler runs. -/
inductive Reachable : Srv → Prop where
  | init : Reachable initSrv
  | step {s : Srv} (h : Reachable s) (ev : Event) : Reachable (step s ev)

/-! ## Map lemmas -/

theorem mapGet_some_mem {k : Identity} {v : SessionId}
    {l : List (Identity × SessionId)} (h : mapGet k l = some v) : (k, v) ∈ l := by
  induction l with
  | nil => simp [mapGet] at h
  | cons kv rest ih =>
    obtain ⟨k', v'⟩ := kv
    by_cases hk : k' = k
    · subst hk
      simp [mapGet] at h
      simp [h]
    · simp [mapGet, hk] at h
      exact List.mem_cons_of_mem _ (ih h)

theorem mapGet_eq_none_iff {k : Identity} {l : List (Identity × SessionId)} :
    mapGet k l = none ↔ k ∉ l.map Prod.fst := by
  induction l with
  | nil => simp [mapGet]
  | cons kv rest ih =>
    obtain ⟨k', v'⟩ := kv
    by_cases hk : k' = k
    · subst hk; simp [mapGet]
    · rw [List.map_cons, List.mem_cons]
      simp only [mapGet, if_neg hk, ih]
      constructor
      · intro h hmem
        rcases hmem with h1 | h1
        · exact hk h1.symm
        · exact h h1
      · exact fun h h1 => h (Or.inr h1)

theorem mem_keys_mapSet {a k : Identity} {v : SessionId}
    {l : List (Identity × SessionId)} :
    a ∈ (mapSet k v l).map Prod.fst ↔ a = k ∨ a ∈ l.map Prod.fst := by
  induction l with
  | nil => simp [mapSet]
  | cons kv rest ih =>
    obtain ⟨k', v'⟩ := kv
    by_cases hk : k' = k
    · subst hk; simp [mapSet]
    · simp only [mapSet, if_neg hk, List.map_cons, List.mem_cons, ih]
      tauto

theorem keys_nodup_mapSet {k : Identity} {v : SessionId}
    {l : List (Identity × SessionId)} (h : (l.map Prod.fst).Nodup) :
    ((mapSet k v l).map Prod.fst).Nodup := by
  induction l with
  | nil => simp [mapSet]
  | cons kv rest ih =>
    obtain ⟨k', v'⟩ := kv
    rw [List.map_cons, List.nodup_cons] at h
    by_cases hk : k' = k
    · subst hk
      rw [mapSet, if_pos rfl, List.map_cons, List.nodup_cons]
      exact h
    · rw [mapSet, if_neg hk, List.map_cons, List.nodup_cons]
      refine ⟨fun hmem => ?_, ih h.2⟩
      rcases mem_keys_mapSet.mp hmem with rfl | hmem2
      · exact hk rfl
      · exact h.1 hmem2

theorem mem_mapSet {a k : Identity} {b v : SessionId}
    {l : List (Identity × SessionId)} (h : (a, b) ∈ mapSet k v l) :
    (a = k ∧ b = v) ∨ (a, b) ∈ l := by
  induction l with
  | nil => simp [mapSet] at h; exact Or.inl h
  | cons kv rest ih =>
    obtain ⟨k', v'⟩ := kv
    by_cases hk : k' = k
    · subst hk
      simp [mapSet] at h
      rcases h with ⟨rfl, rfl⟩ | h
      · exact Or.inl ⟨rfl, rfl⟩
      · exact Or.inr (List.mem_cons_of_mem _ h)
    · simp [mapSet, hk] at h
      rcases h with ⟨rfl, rfl⟩ | h
      · exact Or.inr (List.mem_cons_self _ _)
      · rcases ih h with h2 | h2
        · exact Or.inl h2
        · exact Or.inr (List.mem_cons_of_mem _ h2)

theorem mapDelete_sublist (k : Identity) (l : List (Identity × SessionId)) :
    List.Sublist (mapDelete k l) l := by
  induction l with
  | nil => simp [mapDelete]
  | cons kv rest ih =>
    obtain ⟨k', v'⟩ := kv
    by_cases hk : k' = k
    · rw [mapDelete, if_pos hk]
      exact List.sublist_cons_self _ _
    · rw [mapDelete, if_neg hk]
      exact List.Sublist.cons₂ _ ih

theorem mapGet_mapDelete_self {k : Identity} {l : List (Identity × SessionId)}
    (h : (l.map Prod.fst).Nodup) : mapGet k (mapDelete k l) = none := by
  induction l with
  | nil => simp [mapDelete, mapGet]
  | cons kv rest ih =>
    obtain ⟨k', v'⟩ := kv
    simp at h
    by_cases hk : k' = k
    · subst hk
      simpa [mapDelete, mapGet_eq_none_iff] using h.1
    · simp [mapDelete, mapGet, hk, ih h.2]

/-! ## The registry invariant -/

/-- The registry invariant: the Map's keys are pairwise distinct, and every
entry references an allocated session whose `id` field is the entry's key
(the only insertion is `players.set(this.id, this)`). -/
def RegInv (s : Srv) : Prop :=
  (s.players.map Prod.fst).Nodup ∧
  ∀ k sid, (k, sid) ∈ s.players → ∃ p, s.sessions[sid]? = some p ∧ p.id = k

theorem regInv_mk {s s' : Srv} (hp : s'.players = s.players)
    (hs : s'.sessions = s.sessions) (h : RegInv s) : RegInv s' := by
  unfold RegInv
  rw [hp, hs]
  exact h

theorem getElem?_append_of_some {α : Type} {l l2 : List α} {n : Nat} {a : α}
    (h : l[n]? = some a) : (l ++ l2)[n]? = some a := by
  rw [List.getElem?_append_left (List.getElem?_eq_some.mp h).1]
  exact h

theorem getElem?_set_of_some {α : Type} {l : List α} {n : Nat} {a : α} (b : α)
    (h : l[n]? = some a) : (l.set n b)[n]? = some b := by
  have hn : n < l.length := (List.getElem?_eq_some.mp h).1
  simp [List.getElem?_set_self', hn]

theorem regInv_closePlayer {s : Srv} (h : RegInv s) (sid : SessionId) :
    RegInv (closePlayer sid s) := by
  unfold closePlayer
  split
  · exact h
  · constructor
    · dsimp only
      split
      · exact List.Nodup.sublist ((mapDelete_sublist _ _).map _) h.1
      · exact h.1
    · intro k sid2 hmem
      dsimp only at hmem ⊢
      refine h.2 k sid2 ?_
      split at hmem
      · exact (mapDelete_sublist _ _).mem hmem
      · exact hmem

theorem regInv_appendSessions {s : Srv} (h : RegInv s) (l : List PlayerData) :
    RegInv { s with sessions := s.sessions ++ l } := by
  refine ⟨h.1, fun k sid2 hmem => ?_⟩
  obtain ⟨p, hp, hpid⟩ := h.2 k sid2 hmem
  exact ⟨p, getElem?_append_of_some hp, hpid⟩

theorem onUpdate_id {p : PlayerData} {e : Option WireMsg} {r : PlayerData × Bool}
    (h : onUpdate p e = .ok r) : r.1.id = p.id := by
  unfold onUpdate at h
  repeat' split at h
  all_goals simp_all
  all_goals subst h
  all_goals rfl

theorem regInv_connClose {s : Srv} (h : RegInv s) (i : Identity) :
    RegInv (connClose i s) := by
  unfold connClose
  split
  · exact regInv_closePlayer h _
  · exact h

/-- Every reachable server state satisfies the registry invariant. -/
theorem reachable_regInv {s : Srv} (h : Reachable s) : RegInv s := by
  induction h with
  | init => exact ⟨by simp [initSrv], by simp [initSrv]⟩
  | step hs ev ih =>
    rename_i s
    cases ev with
    | connection i cs =>
      have h3 : RegInv (connClose i
          { connClose i s with
            sessions := (connClose i s).sessions ++ [freshPlayer i] }) :=
        regInv_connClose (regInv_appendSessions (regInv_connClose ih i) _) i
      simp only [step]
      split
      · exact regInv_closePlayer h3 _
      · exact regInv_mk rfl rfl h3
    | openEvt sid =>
      simp only [step]
      cases hp : s.sessions[sid]? with
      | none => exact ih
      | some p =>
        refine ⟨keys_nodup_mapSet ih.1, fun k sid2 hmem => ?_⟩
        dsimp only at hmem
        rcases mem_mapSet hmem with ⟨rfl, rfl⟩ | hold
        · exact ⟨p, hp, rfl⟩
        · exact ih.2 k sid2 hold
    | dataEvt sid e =>
      simp only [step]
      split
      · exact ih
      · rename_i p hp
        split
        · exact ih
        · rename_i p2 doSend hu
          have hid : p2.id = p.id := onUpdate_id hu
          have hbase : RegInv { s with sessions := s.sessions.set sid p2 } := by
            refine ⟨ih.1, fun k sid2 hmem => ?_⟩
            obtain ⟨q, hq, hqid⟩ := ih.2 k sid2 hmem
            by_cases hsid : sid2 = sid
            · subst hsid
              rw [hp] at hq
              injection hq with hq
              subst hq
              exact ⟨p2, getElem?_set_of_some p2 hp, by rw [hid, hqid]⟩
            · exact ⟨q, by
                rw [List.getElem?_set_ne (fun hh => hsid hh.symm)]
                exact hq, hqid⟩
          split
          · exact (regInv_mk rfl rfl hbase :
              RegInv { s with
                sessions := s.sessions.set sid p2
                sent := s.sent ++
                  [(sid, sendMsg "update"
                      (.arr (rosterPayload p2.id
                        (regViewList (s.sessions.set sid p2) s.players)))
                      false)] })
          · exact hbase
    | closeEvt sid =>
      simp only [step]
      cases hp : s.sessions[sid]? with
      | none => exact ih
      | some p => exact regInv_closePlayer ih sid
    | errorEvt sid =>
      simp only [step]
      cases hp : s.sessions[sid]? with
      | none => exact ih
      | some p =>
        have h1 : RegInv (closePlayer sid s) := regInv_closePlayer ih sid
        refine ⟨?_, fun k sid2 hmem => ?_⟩
        · exact List.Nodup.sublist ((mapDelete_sublist _ _).map _) h1.1
        · exact h1.2 k sid2 ((mapDelete_sublist _ _).mem hmem)
    | tick sid cs =>
      simp only [step]
      split
      · split
        · exact regInv_closePlayer
            (regInv_mk rfl rfl ih :
              RegInv { s with monitors := s.monitors.erase sid }) sid
        · exact (regInv_mk rfl rfl ih :
            RegInv { s with monitors := (s.monitors.erase sid) ++ [sid] })
      · exact ih
    | fireDisc j =>
      simp only [step]
      split
      · exact ih
      · split
        · exact ih
        · rename_i sid hj p hp
          exact (regInv_mk rfl rfl ih :
            RegInv { s with
              pendingDisc := s.pendingDisc.eraseIdx j
              sent := s.sent ++
                sendEventToAll p.id "disconnected" (.str p.id) true s.players })

/-! ## Roster payload lemmas -/

theorem rosterPayload_eq_filter (selfId : Identity)
    (reg : List (Identity × PlayerData)) :
    rosterPayload selfId reg
      = (reg.filter (fun kv => kv.1 != selfId)).map
          (fun kv => rosterEntry kv.1 kv.2) := by
  induction reg with
  | nil => rfl
  | cons kv rest ih =>
    obtain ⟨k, p⟩ := kv
    by_cases hk : k = selfId
    · simp [rosterPayload, hk, List.filter_cons, ih]
    · simp [rosterPayload, hk, List.filter_cons, ih]

theorem mem_rosterPayload {selfId : Identity} {reg : List (Identity × PlayerData)}
    {v : JSValue} (h : v ∈ rosterPayload selfId reg) :
    ∃ k p, (k, p) ∈ reg ∧ k ≠ selfId ∧ v = rosterEntry k p := by
  induction reg with
  | nil => simp [rosterPayload] at h
  | cons kv rest ih =>
    obtain ⟨k, p⟩ := kv
    by_cases hk : k = selfId
    · rw [rosterPayload, if_pos hk] at h
      obtain ⟨k2, p2, hmem, hne, hv⟩ := ih h
      exact ⟨k2, p2, List.mem_cons_of_mem _ hmem, hne, hv⟩
    · rw [rosterPayload, if_neg hk] at h
      rcases List.mem_cons.mp h with rfl | h2
      · exact ⟨k, p, List.mem_cons_self _ _, hk, rfl⟩
      · obtain ⟨k2, p2, hmem, hne, hv⟩ := ih h2
        exact ⟨k2, p2, List.mem_cons_of_mem _ hmem, hne, hv⟩

theorem getField_rosterEntry_name (k : Identity) (p : PlayerData) :
    getField (rosterEntry k p) "name" = .str k := rfl

/-! ## Broadcast lemmas and projection lemmas -/

theorem sendEventToAll_eq_filter (selfId : Identity) (name : String)
    (payload : JSValue) (skip : Bool) (l : List (Identity × SessionId)) :
    sendEventToAll selfId name payload skip l
      = (l.filter (fun kv => kv.1 != selfId)).map
          (fun kv => (kv.2, sendMsg name payload skip)) := by
  induction l with
  | nil => rfl
  | cons kv rest ih =>
    obtain ⟨k, sid⟩ := kv
    by_cases hk : k = selfId
    · simp [sendEventToAll, hk, List.filter_cons, ih]
    · simp [sendEventToAll, hk, List.filter_cons, ih]

theorem mem_sendEventToAll {selfId : Identity} {name : String}
    {payload : JSValue} {skip : Bool} {l : List (Identity × SessionId)}
    {v : SessionId} {m : OutMsg}
    (h : (v, m) ∈ sendEventToAll selfId name payload skip l) :
    ∃ k, (k, v) ∈ l ∧ k ≠ selfId := by
  induction l with
  | nil => simp [sendEventToAll] at h
  | cons kv rest ih =>
    obtain ⟨k, sid⟩ := kv
    by_cases hk : k = selfId
    · rw [sendEventToAll, if_pos hk] at h
      obtain ⟨k2, hmem, hne⟩ := ih h
      exact ⟨k2, List.mem_cons_of_mem _ hmem, hne⟩
    · rw [sendEventToAll, if_neg hk] at h
      rcases List.mem_cons.mp h with heq | h2
      · injection heq with h1 h2
        subst h1
        exact ⟨k, List.mem_cons_self _ _, hk⟩
      · obtain ⟨k2, hmem, hne⟩ := ih h2
        exact ⟨k2, List.mem_cons_of_mem _ hmem, hne⟩

theorem closePlayer_sessions (sid : SessionId) (s : Srv) :
    (closePlayer sid s).sessions = s.sessions := by
  unfold closePlayer
  split <;> rfl

theorem closePlayer_monitors (sid : SessionId) (s : Srv) :
    (closePlayer sid s).monitors = s.monitors := by
  unfold closePlayer
  split <;> rfl

/-! ## Concrete traces used as witnesses and counterexamples -/

/-- A two-player run: A connects and opens (session 0), then B connects and
opens (session 1). -/
def srvAB : Srv :=
  step (step (step (step initSrv (.connection "A" .connected)) (.openEvt 0))
    (.connection "B" .connected)) (.openEvt 1)

/-- `Reachable srvAB`. -/
theorem srvAB_reachable : Reachable srvAB :=
  ((((Reachable.init).step (.connection "A" .connected)).step (.openEvt 0)).step
    (.connection "B" .connected)).step (.openEvt 1)

/-- `srvAB` after B's connection fires its `close` event: B's entry is gone
and B's delayed "disconnected" broadcast is pending. -/
def srvABclosedB : Srv := step srvAB (.closeEvt 1)

/-- A single player A that connected and opened (session 0). -/
def srvAopen : Srv := step (step initSrv (.connection "A" .connected)) (.openEvt 0)

/-- `srvAopen` after A's connection fires its `close` event: the session is
closed (its transport handle closed, its registry entry removed) but its
disconnect checker is still scheduled. -/
def srvAclosed : Srv := step srvAopen (.closeEvt 0)

/-- Two connections for the same identity A racing: the second arrives before
the first has opened (so neither is registered and no displacement close
happens), then the second (session 1) opens.  Session 0's open event is still
pending. -/
def srvDoubleA : Srv :=
  step (step (step initSrv (.connection "A" .connected))
    (.connection "A" .connected)) (.openEvt 1)

/-- A reconnect: A connects and opens (session 0), a second connection for A
arrives — displacing and closing session 0 — and opens (session 1). -/
def srvReconA : Srv :=
  step (step (step (step initSrv (.connection "A" .connected)) (.openEvt 0))
    (.connection "A" .connected)) (.openEvt 1)

/-- `Reachable srvReconA`. -/
theorem srvReconA_reachable : Reachable srvReconA :=
  ((((Reachable.init).step (.connection "A" .connected)).step (.openEvt 0)).step
    (.connection "A" .connected)).step (.openEvt 1)

/-! ## Claim theorems -/

/-- C2: the roster payload `updateClient` builds for a session is exactly the
`{x, y, animation, flip, name}` record list of the registry entries under a
key other than the session's own identity (under the key-consistency
invariant `reachable_regInv`, those are exactly the registered sessions other
than this one), and in particular no entry of it carries `name` equal to the
session's own identity. -/
theorem roster_excludes_self :
    ∀ (selfId : Identity) (reg : List (Identity × PlayerData)),
      rosterPayload selfId reg
        = (reg.filter (fun kv => kv.1 != selfId)).map
            (fun kv => rosterEntry kv.1 kv.2) ∧
      ∀ v ∈ rosterPayload selfId reg, getField v "name" ≠ .str selfId := by
  intro selfId reg
  refine ⟨rosterPayload_eq_filter selfId reg, fun v hv heq => ?_⟩
  obtain ⟨k, p, _, hne, rfl⟩ := mem_rosterPayload hv
  rw [getField_rosterEntry_name] at heq
  injection heq with heq
  exact hne heq

/-- C3 (code bug): an "update" message whose data payload is a malformed
JSON string makes `onUpdate` throw the `JSON.parse` exception out of the
data handler instead of silently dropping the message: the handler calls
`JSON.parse` directly, although the try/catch helper `parseJSON` is defined
at the top of the file precisely for this and the guard
`if(data === undefined) return;` is only reachable through it. -/
theorem update_parse_failure_raises :
    onUpdate (freshPlayer "A") (some ⟨some "update", Raw.bad⟩)
      = .error .parseErr := rfl

/-- C4 (amended): an "update" whose parsed data carries field `x` resolves
the session's `x` by `data.x || 0`: a falsy `x` (absent, `null`, `false`,
`0`, `""`) collapses to `0`, but a truthy non-numeric `x` is stored as-is;
either way the handler returns normally (and a data event never closes a
connection or touches the registry). -/
theorem update_x_falsy_fallback :
    (∀ (p : PlayerData) (xv : JSValue),
      onUpdate p (some ⟨some "update", .ok (.obj [("x", xv)])⟩)
        = .ok ({ p with
                  x := (if truthy xv then xv else .num 0)
                  y := .num 0
                  animation := .num 0 }, true)) ∧
    (∀ (s : Srv) (sid : SessionId) (e : Option WireMsg),
      (step s (.dataEvt sid e)).closedConns = s.closedConns ∧
      (step s (.dataEvt sid e)).players = s.players) := by
  constructor
  · intro p xv
    rfl
  · intro s sid e
    simp only [step]
    split
    · exact ⟨rfl, rfl⟩
    · split
      · exact ⟨rfl, rfl⟩
      · split
        · exact ⟨rfl, rfl⟩
        · exact ⟨rfl, rfl⟩

/-- C4 (counterexample to the claim as stated): an "update" carrying the
non-numeric but truthy `x` value `"abc"` leaves the session's `x` equal to
the string `"abc"`, not `0`. -/
theorem update_nonnumeric_x_kept :
    onUpdate (freshPlayer "A") (some ⟨some "update", .ok (.obj [("x", .str "abc")])⟩)
      = .ok ({ freshPlayer "A" with x := .str "abc" }, true) ∧
    JSValue.str "abc" ≠ JSValue.num 0 := by
  exact ⟨rfl, fun h => JSValue.noConfusion h⟩

/-- C9: a "flip" message overwrites exactly the session's `flip` field with
the parsed payload value — `x`, `y` and `animation` are untouched and
nothing is sent to any connection (the flag that records an `updateClient`
call is `false`, and the server step only rewrites the session store). -/
theorem flip_overwrites_only_flip :
    (∀ (p : PlayerData) (v : JSValue),
      onUpdate p (some ⟨some "flip", .ok v⟩) = .ok ({ p with flip := v }, false)) ∧
    (∀ (s : Srv) (sid : SessionId) (v : JSValue) (p : PlayerData),
      s.sessions[sid]? = some p →
      step s (.dataEvt sid (some ⟨some "flip", .ok v⟩))
        = { s with sessions := s.sessions.set sid { p with flip := v } }) := by
  constructor
  · intro p v
    rfl
  · intro s sid v p hp
    simp only [step, hp]
    rfl

/-- C10: registry key consistency — in every reachable server state, every
registry entry maps its key to a session whose `id` field equals that key
(the only insertion is `players.set(this.id, this)` and deletions cannot
break the property), so iteration may use the key and the session's identity
interchangeably. -/
theorem registry_key_consistency (s : Srv) (hs : Reachable s) :
    ∀ k sid, (k, sid) ∈ s.players →
      ∃ p, s.sessions[sid]? = some p ∧ p.id = k :=
  (reachable_regInv hs).2

/-- C10, witnessed on the concrete two-player run `srvAB`. -/
theorem registry_key_consistency_witness :
    ∃ p, srvAB.sessions[1]? = some p ∧ p.id = "B" :=
  registry_key_consistency srvAB srvAB_reachable "B" 1 (by decide)

/-- C5 (amended): when a session's transport `open` event fires, the session
is unconditionally inserted into the registry under its identity
(`players.set(this.id, this)`), overwriting whatever entry that identity
currently has — there is no "still the referenced session" guard. -/
theorem open_unconditional_insert (s : Srv) (sid : SessionId) (p : PlayerData)
    (hp : s.sessions[sid]? = some p) :
    (step s (.openEvt sid)).players = mapSet p.id sid s.players := by
  simp only [step, hp]

/-- C5 amended, witnessed on `srvDoubleA`. -/
theorem open_unconditional_insert_witness :
    (step srvDoubleA (.openEvt 0)).players = mapSet "A" 0 srvDoubleA.players :=
  open_unconditional_insert srvDoubleA 0 (freshPlayer "A") rfl

/-- C5 (counterexample to the claim as stated): in `srvDoubleA` the registry
maps identity "A" to session 1 (the replacement), yet the pending late `open`
event of the stale session 0 re-inserts session 0 over it. -/
theorem late_open_reinserts_stale :
    Reachable (step srvDoubleA (.openEvt 0)) ∧
    mapGet "A" srvDoubleA.players = some 1 ∧
    mapGet "A" (step srvDoubleA (.openEvt 0)).players = some 0 :=
  ⟨((((Reachable.init).step (.connection "A" .connected)).step
      (.connection "A" .connected)).step (.openEvt 1)).step (.openEvt 0),
   by decide, by decide⟩

/-- C6 (amended): a `disconnectChecker` tick stops the monitor exactly when
it observes `connectionState` 'failed' or 'disconnected' (in which case it
also runs `player.close()`); on every other observed state it reschedules
itself, regardless of whether the session has been closed. -/
theorem monitor_stop_condition (s : Srv) (sid : SessionId) (cs : ConnState)
    (hmem : sid ∈ s.monitors) :
    (badState cs = true →
      (step s (.tick sid cs)).monitors = s.monitors.erase sid) ∧
    (badState cs = false →
      (step s (.tick sid cs)).monitors = s.monitors.erase sid ++ [sid]) := by
  constructor <;> intro hcs <;> simp only [step, if_pos hmem, hcs] <;>
    simp [closePlayer_monitors]

/-- C6 amended, witnessed on `srvAopen`: a tick observing 'failed' erases the
monitor. -/
theorem monitor_stop_condition_witness :
    (step srvAopen (.tick 0 .failed)).monitors = srvAopen.monitors.erase 0 :=
  (monitor_stop_condition srvAopen 0 .failed (by decide)).1 rfl

/-- C6 (counterexample to the claim as stated): in `srvAclosed` session 0 has
transitioned to Closed via its `close` event (its transport handle is closed
and its registry entry removed), yet a checker tick observing the
`connectionState` 'closed' — neither 'failed' nor 'disconnected' —
reschedules the monitor instead of stopping. -/
theorem monitor_survives_closure :
    Reachable srvAclosed ∧
    0 ∈ srvAclosed.closedConns ∧
    mapGet "A" srvAclosed.players = none ∧
    srvAclosed.monitors = [0] ∧
    (step srvAclosed (.tick 0 .closed)).monitors = [0] :=
  ⟨(((Reachable.init).step (.connection "A" .connected)).step (.openEvt 0)).step
      (.closeEvt 0),
   by decide, by decide, by decide, by decide⟩

/-- C7: when a closed session's delayed "disconnected" broadcast fires, a
`"disconnected"` message whose data is the departed identity string sent raw
(`skipStringify` — not `JSON.stringify`ed) goes to exactly the registered
sessions whose key differs from the departed identity, and every receiver is
registered under a key different from that identity (so none keyed by it). -/
theorem disconnect_broadcast (s : Srv) (j : Nat) (sid : SessionId)
    (p : PlayerData) (hj : s.pendingDisc[j]? = some sid)
    (hp : s.sessions[sid]? = some p) :
    (step s (.fireDisc j)).sent
      = s.sent ++ (s.players.filter (fun kv => kv.1 != p.id)).map
          (fun kv => (kv.2, sendMsg "disconnected" (.str p.id) true)) ∧
    sendMsg "disconnected" (.str p.id) true
      = { eventName := "disconnected", data := .raw (.str p.id) } ∧
    ∀ v m, (v, m) ∈ sendEventToAll p.id "disconnected" (.str p.id) true s.players →
      ∃ k, (k, v) ∈ s.players ∧ k ≠ p.id := by
  refine ⟨?_, rfl, fun v m h => mem_sendEventToAll h⟩
  simp only [step, hj, hp]
  rw [sendEventToAll_eq_filter]

/-- C7, witnessed on `srvABclosedB`: firing B's pending broadcast appends
exactly the message to A's connection. -/
theorem disconnect_broadcast_witness :
    (step srvABclosedB (.fireDisc 0)).sent
      = srvABclosedB.sent
        ++ (srvABclosedB.players.filter (fun kv => kv.1 != "B")).map
            (fun kv => (kv.2, sendMsg "disconnected" (.str "B") true)) :=
  (disconnect_broadcast srvABclosedB 0 1 (freshPlayer "B") rfl rfl).1

/-- C8 (amended): `Player.close()` deletes the registry entry only under the
`players.get(this.id) === this` guard, so a close on a session that is no
longer the registered one leaves the registry unchanged; but the `error`
handler additionally runs an unguarded `players.delete(this.id)`, which
empties the identity's entry even when a newer session owns it; and every
`close()` run schedules another delayed "disconnected" broadcast (there is no
lifecycle flag), so repeated close/error events notify repeatedly. -/
theorem close_error_guards (s : Srv) (sid : SessionId) (p : PlayerData)
    (hp : s.sessions[sid]? = some p)
    (hnd : (s.players.map Prod.fst).Nodup) :
    (mapGet p.id s.players ≠ some sid →
      (step s (.closeEvt sid)).players = s.players) ∧
    mapGet p.id (step s (.errorEvt sid)).players = none ∧
    (step s (.closeEvt sid)).pendingDisc = s.pendingDisc ++ [sid] := by
  refine ⟨fun hne => ?_, ?_, ?_⟩
  · simp only [step, hp, closePlayer, hp]
    rw [if_neg hne]
  · simp only [step, hp]
    have hnd2 : (((closePlayer sid s).players).map Prod.fst).Nodup := by
      unfold closePlayer
      rw [hp]
      dsimp only
      split
      · exact List.Nodup.sublist ((mapDelete_sublist _ _).map _) hnd
      · exact hnd
    exact mapGet_mapDelete_self hnd2
  · simp only [step, hp, closePlayer, hp]

/-- C8 amended, witnessed on `srvReconA`: session 0 has been displaced by
session 1 under identity "A"; a late close event for session 0 leaves the
registry untouched (but schedules yet another broadcast), while a late error
event deletes identity "A" outright. -/
theorem close_error_guards_witness :
    (step srvReconA (.closeEvt 0)).players = srvReconA.players ∧
    mapGet "A" (step srvReconA (.errorEvt 0)).players = none ∧
    (step srvReconA (.closeEvt 0)).pendingDisc = srvReconA.pendingDisc ++ [0] := by
  have h := close_error_guards srvReconA 0 (freshPlayer "A") rfl (by decide)
  exact ⟨h.1 (by decide), h.2.1, h.2.2⟩

/-- C8 (counterexample to the claim as stated): in `srvReconA` the displaced,
closed session 0 shares identity "A" with its replacement session 1 — which
the registry maps "A" to — and session 0's late `error` event removes
session 1's registry entry. -/
theorem error_on_displaced_removes_replacement :
    Reachable srvReconA ∧
    mapGet "A" srvReconA.players = some 1 ∧
    0 ∈ srvReconA.closedConns ∧
    mapGet "A" (step srvReconA (.errorEvt 0)).players = none :=
  ⟨srvReconA_reachable, by decide, by decide, by decide⟩

/-- Characterization of the `connection` handler when the arriving identity
is already registered: the registered session `old` is closed (its transport
handle closed, its entry deleted, its broadcast scheduled), the constructor's
repeated dedup check is a no-op on the now-deleted key, and the new session
is allocated — closed at once by the constructor's synchronous first checker
run when the connection state is already failed/disconnected, otherwise left
with a scheduled monitor.  The new session is in no case inserted into the
registry. -/
theorem step_connection_of_registered (s : Srv) (i : Identity) (cs : ConnState)
    (old : SessionId) (po : PlayerData)
    (hg : mapGet i s.players = some old)
    (hpo : s.sessions[old]? = some po) (hpoid : po.id = i)
    (hnd : (s.players.map Prod.fst).Nodup) :
    step s (.connection i cs) =
      if badState cs then
        { s with
          sessions := s.sessions ++ [freshPlayer i]
          players := mapDelete i s.players
          closedConns := s.closedConns ++ [old] ++ [s.sessions.length]
          pendingDisc := s.pendingDisc ++ [old] ++ [s.sessions.length] }
      else
        { s with
          sessions := s.sessions ++ [freshPlayer i]
          players := mapDelete i s.players
          closedConns := s.closedConns ++ [old]
          pendingDisc := s.pendingDisc ++ [old]
          monitors := s.monitors ++ [s.sessions.length] } := by
  have hclose : closePlayer old s = { s with
      closedConns := s.closedConns ++ [old]
      players := mapDelete i s.players
      pendingDisc := s.pendingDisc ++ [old] } := by
    unfold closePlayer
    rw [hpo]
    dsimp only
    rw [hpoid, hg, if_pos rfl]
  have hcc : connClose i s = closePlayer old s := by
    unfold connClose
    rw [hg]
  have hg2 : mapGet i (mapDelete i s.players) = none := mapGet_mapDelete_self hnd
  simp only [step, hcc, hclose]
  simp only [connClose, hg2]
  cases hb : badState cs with
  | true =>
    rw [if_pos rfl, if_pos rfl]
    simp only [closePlayer, List.getElem?_concat_length]
    simp [freshPlayer, hg2]
  | false =>
    rw [if_neg (by simp), if_neg (by simp)]

/-- C1: in every reachable server state the registry keys are pairwise
distinct (at most one session per identity), and when a new connection
arrives for an identity that is already registered, the handler runs
`close()` on the previously registered session — its transport handle ends
up closed and its registry entry removed — while the newly admitted session
is not yet in the registry after the connection step (it is only inserted by
its own later `open` event): after the step no entry carries the old session
or the new one. -/
theorem one_session_per_identity (s : Srv) (hs : Reachable s) :
    (s.players.map Prod.fst).Nodup ∧
    ∀ (i : Identity) (cs : ConnState) (old : SessionId),
      mapGet i s.players = some old →
      old ∈ (step s (.connection i cs)).closedConns ∧
      mapGet i (step s (.connection i cs)).players = none ∧
      ∀ k v, (k, v) ∈ (step s (.connection i cs)).players →
        v ≠ s.sessions.length ∧ v ≠ old := by
  have hInv := reachable_regInv hs
  refine ⟨hInv.1, fun i cs old hg => ?_⟩
  obtain ⟨po, hpo, hpoid⟩ := hInv.2 i old (mapGet_some_mem hg)
  have hchar := step_connection_of_registered s i cs old po hg hpo hpoid hInv.1
  have hplayers : (step s (.connection i cs)).players = mapDelete i s.players := by
    rw [hchar]
    split <;> rfl
  have hclosed : old ∈ (step s (.connection i cs)).closedConns := by
    rw [hchar]
    split <;> simp
  refine ⟨hclosed, ?_, fun k v hmem => ?_⟩
  · rw [hplayers]
    exact mapGet_mapDelete_self hInv.1
  · rw [hplayers] at hmem
    have hmem2 : (k, v) ∈ s.players := (mapDelete_sublist _ _).mem hmem
    obtain ⟨q, hq, hqid⟩ := hInv.2 k v hmem2
    constructor
    · intro hlen
      subst hlen
      exact absurd (List.getElem?_eq_some.mp hq).1 (lt_irrefl _)
    · intro hvold
      rw [hvold] at hmem hq
      rw [hpo] at hq
      injection hq with hq
      rw [← hq] at hqid
      rw [hpoid] at hqid
      rw [← hqid] at hmem
      have hnone := mapGet_mapDelete_self (k := i) (l := s.players) hInv.1
      rw [mapGet_eq_none_iff] at hnone
      exact hnone (List.mem_map.mpr ⟨(i, old), hmem, rfl⟩)

/-- C1, witnessed on `srvAB` with a reconnect of identity A. -/
theorem one_session_per_identity_witness :
    0 ∈ (step srvAB (.connection "A" .connected)).closedConns ∧
    mapGet "A" (step srvAB (.connection "A" .connected)).players = none := by
  have h := (one_session_per_identity srvAB srvAB_reachable).2
    "A" .connected 0 (by decide)
  exact ⟨h.1, h.2.1⟩

end GDP2P
